import Mathlib

/-!
Verification of the Tuya-Teralux backend's device aggregation and
command-dispatch pipeline, shallowly embedded from the Go sources.

Conventions of the embedding:
* Go `interface{}` scalar values (bool / number / string) become `GoValue`.
* A Go `map[string]T` is modelled as an association list in which inserting
  conses the new pair at the front and lookup returns the first match; this
  reproduces Go's overwrite-on-insert semantics.  Go's unspecified map
  iteration order is canonicalised (most-recently-written entry first); the
  properties proved are insensitive to that order.
* Effectful functions receive their environment (upstream responses, clock
  readings, store contents) explicitly and return the updated stores
  together with the trace of outgoing HTTP requests.
-/

/-- A dynamically-typed scalar, modelling a Go `interface{}` value that is a
bool, a number, or a string (the shapes that occur in device status and
command payloads). -/
inductive GoValue where
  | vBool (b : Bool)
  | vInt (n : Int)
  | vStr (s : String)
deriving DecidableEq, Repr

/-- A `{code, value}` pair.  Models `TuyaDeviceStatusDTO`, `TuyaCommandDTO`,
`DeviceStateCommandDTO`, `entities.TuyaCommand` and `entities.DeviceStateCommand`
from the Go sources: all of these are structurally `{Code string, Value interface{}}`. -/
structure CodeValue where
  code : String
  value : GoValue
deriving DecidableEq, Repr

/-- Insertion into a Go `map[string]α`: cons at the front, so that with
first-match lookup the most recent write wins (Go overwrite semantics). -/
def goInsert {α : Type} (m : List (String × α)) (k : String) (v : α) :
    List (String × α) :=
  (k, v) :: m

/-- Lookup in the Go-map model: first match wins (= most recent insert). -/
def goLookup {α : Type} (m : List (String × α)) (k : String) : Option α :=
  (m.find? (fun p => p.1 == k)).map (·.2)

theorem goLookup_goInsert {α : Type} (m : List (String × α)) (k k' : String) (v : α) :
    goLookup (goInsert m k v) k' = if k = k' then some v else goLookup m k' := by
  by_cases h : k = k'
  · simp [goLookup, goInsert, List.find?_cons_of_pos, h]
  · have hb : (k == k') = false := by simpa using h
    simp [goLookup, goInsert, List.find?_cons, hb, h]

theorem goLookup_nil {α : Type} (k : String) : goLookup ([] : List (String × α)) k = none := rfl

/-- Byte-level prefix test, modelling Go's `strings.HasPrefix` and BadgerDB's
byte-prefix matching. -/
def strHasPrefix (pre s : String) : Bool :=
  pre.data.isPrefixOf s.data

/- ### Key-value store (`BadgerService`, src/unnamed/part_020)

The raw storage engine is treated as a map from keys to entries; an entry
records the payload together with its TTL (`none` = persistent, i.e. written
by `SetPersistent`; `some ttl` = written by `Set` with the default TTL). -/

/-- One stored record: payload plus optional TTL. -/
structure BadgerEntry where
  value : String
  ttl : Option Nat
deriving DecidableEq, Repr

/-- The store: total lookup function from keys to optional entries. -/
def BadgerDB : Type := String → Option BadgerEntry

/-- `BadgerService.Set`: store under the configured default TTL. -/
def badgerSet (db : BadgerDB) (key value : String) (defaultTTL : Nat) : BadgerDB :=
  fun k => if k = key then some ⟨value, some defaultTTL⟩ else db k

/-- `BadgerService.SetPersistent`: store with no TTL. -/
def setPersistent (db : BadgerDB) (key value : String) : BadgerDB :=
  fun k => if k = key then some ⟨value, none⟩ else db k

/-- `BadgerService.Get`: return the payload, or `none` when absent. -/
def badgerGet (db : BadgerDB) (key : String) : Option String :=
  (db key).map (·.value)

/-- `BadgerService.Delete`. -/
def badgerDelete (db : BadgerDB) (key : String) : BadgerDB :=
  fun k => if k = key then none else db k

/-- `BadgerService.FlushAll`: `DropPrefix("cache:")` — delete exactly the keys
under the `cache:` prefix. -/
def flushAll (db : BadgerDB) : BadgerDB :=
  fun k => if strHasPrefix "cache:" k then none else db k

theorem strHasPrefix_cache_deviceState (id : String) :
    strHasPrefix "cache:" ("device_state:" ++ id) = false := by
  simp [strHasPrefix, List.isPrefixOf]

/-- C3: after `FlushAll`, every `device_state:` key written by `SetPersistent`
(no TTL) is still retrievable unchanged — in fact every key outside the
`cache:` prefix is untouched, and exactly the `cache:`-prefixed keys are
deleted. -/
theorem flushAll_preserves_device_state
    (db : BadgerDB) (id payload : String) :
    (setPersistent db ("device_state:" ++ id) payload) ("device_state:" ++ id)
        = some ⟨payload, none⟩
    ∧ badgerGet (flushAll (setPersistent db ("device_state:" ++ id) payload))
        ("device_state:" ++ id) = some payload
    ∧ (∀ k, strHasPrefix "cache:" k = false → flushAll db k = db k)
    ∧ (∀ k, strHasPrefix "cache:" k = true → flushAll db k = none) := by
  refine ⟨by simp [setPersistent], ?_, ?_, ?_⟩
  · simp [badgerGet, flushAll, setPersistent, strHasPrefix_cache_deviceState]
  · intro k hk; simp [flushAll, hk]
  · intro k hk; simp [flushAll, hk]

/- ### Device State Store (`DeviceStateUseCase`,
src/backend/domain/tuya/dtos/tuya_auth_dto.go — SaveDeviceState / GetDeviceState)

The store keeps one `entities.DeviceState` record per device id under the
persistent key `device_state:<id>`.  The JSON marshal/unmarshal round trip is
abstracted as the identity, so the store maps device ids directly to records. -/

/-- `entities.DeviceState`: persisted control memory of one device. -/
structure DeviceStateRec where
  deviceID : String
  lastCommands : List CodeValue
  updatedAt : Int
deriving DecidableEq, Repr

/-- The device-state store, keyed by device id. -/
def DStore : Type := String → Option DeviceStateRec

/-- `GetDeviceState`: read the persisted record (`none` = not found). -/
def getDeviceState (store : DStore) (deviceID : String) : Option DeviceStateRec :=
  store deviceID

/-- Fold a command list into a Go map (later commands overwrite earlier ones),
starting from `m0`.  Models the two insertion loops of `SaveDeviceState`. -/
def buildCommandMap (cmds : List CodeValue) (m0 : List (String × GoValue)) :
    List (String × GoValue) :=
  cmds.foldl (fun m c => goInsert m c.code c.value) m0

/-- Convert a Go map back to an entry list (`for code, value := range commandMap`):
each key appears exactly once, with its current (most recent) value.  Go's
unspecified iteration order is canonicalised to most-recently-written-first. -/
def goMapEntries {α : Type} (seen : List String) :
    List (String × α) → List (String × α)
  | [] => []
  | p :: rest =>
    if seen.contains p.1 then goMapEntries seen rest
    else p :: goMapEntries (p.1 :: seen) rest

/-- `SaveDeviceState`: read the existing record (a read failure is treated as
absence), merge its commands with the incoming ones by code, and write the
merged record back with a fresh `updatedAt`. -/
def saveDeviceState (store : DStore) (deviceID : String)
    (commands : List CodeValue) (now : Int) : DStore :=
  let existing := getDeviceState store deviceID
  let m0 : List (String × GoValue) :=
    match existing with
    | some st => buildCommandMap st.lastCommands []
    | none => []
  let m := buildCommandMap commands m0
  let merged := (goMapEntries [] m).map (fun p => CodeValue.mk p.1 p.2)
  fun k => if k = deviceID then some ⟨deviceID, merged, now⟩ else store k

/-- Lookup of a code in a `{code, value}` list, first match wins. -/
def cmdLookup (cmds : List CodeValue) (key : String) : Option GoValue :=
  (cmds.find? (fun c => c.code == key)).map (·.value)

/-- The value of the most recent (`= last`) entry for `key` in a command list. -/
def lastWrite : List CodeValue → String → Option GoValue
  | [], _ => none
  | c :: cs, key =>
    match lastWrite cs key with
    | some v => some v
    | none => if c.code == key then some c.value else none

/-- Left-biased choice on optional values. -/
def optOr (x y : Option GoValue) : Option GoValue :=
  match x with
  | some v => some v
  | none => y

/-- All commands sent across a sequence of save calls, in order. -/
def allSent (saves : List (List CodeValue)) : List CodeValue :=
  saves.foldl (fun a l => a ++ l) []

/-- Run a sequence of `SaveDeviceState` calls against one device id. -/
def applySaves (store : DStore) (deviceID : String) (now : Int)
    (saves : List (List CodeValue)) : DStore :=
  saves.foldl (fun s cmds => saveDeviceState s deviceID cmds now) store

theorem goLookup_cons {α : Type} (p : String × α) (m : List (String × α)) (k : String) :
    goLookup (p :: m) k = if p.1 = k then some p.2 else goLookup m k := by
  by_cases h : p.1 = k
  · simp [goLookup, List.find?_cons_of_pos, h]
  · have hb : (p.1 == k) = false := by simpa using h
    simp [goLookup, List.find?_cons, hb, h]

theorem goLookup_buildCommandMap (cmds : List CodeValue)
    (m0 : List (String × GoValue)) (key : String) :
    goLookup (buildCommandMap cmds m0) key =
      optOr (lastWrite cmds key) (goLookup m0 key) := by
  induction cmds generalizing m0 with
  | nil => simp [buildCommandMap, optOr, lastWrite]
  | cons c cs ih =>
    show goLookup (buildCommandMap cs (goInsert m0 c.code c.value)) key = _
    rw [ih]
    by_cases hk : c.code = key
    · cases hw : lastWrite cs key <;>
        simp [lastWrite, hw, optOr, goLookup_goInsert, hk]
    · have hb : (c.code == key) = false := by simpa using hk
      cases hw : lastWrite cs key <;>
        simp [lastWrite, hw, optOr, goLookup_goInsert, hk, hb]

theorem goLookup_goMapEntries {α : Type} (m : List (String × α))
    (seen : List String) (key : String) (hkey : key ∉ seen) :
    goLookup (goMapEntries seen m) key = goLookup m key := by
  induction m generalizing seen with
  | nil => rfl
  | cons p rest ih =>
    by_cases hp : p.1 ∈ seen
    · have hne : p.1 ≠ key := fun h => hkey (h ▸ hp)
      simp [goMapEntries, hp, ih seen hkey, goLookup_cons, hne]
    · by_cases hk : p.1 = key
      · simp [goMapEntries, hp, hk, hkey, goLookup_cons]
      · have hkey' : key ∉ p.1 :: seen := by
          intro h
          rcases List.mem_cons.mp h with h | h
          · exact hk h.symm
          · exact hkey h
        simp [goMapEntries, hp, goLookup_cons, hk, ih (p.1 :: seen) hkey']

theorem lastWrite_goMapEntries_none (m : List (String × GoValue))
    (seen : List String) (key : String) (hkey : key ∈ seen) :
    lastWrite ((goMapEntries seen m).map (fun p => CodeValue.mk p.1 p.2)) key
      = none := by
  induction m generalizing seen with
  | nil => rfl
  | cons p rest ih =>
    by_cases hp : p.1 ∈ seen
    · simp [goMapEntries, hp, ih seen hkey]
    · have hne : p.1 ≠ key := fun h => hp (h ▸ hkey)
      have hb : (p.1 == key) = false := by simpa using hne
      have hkey' : key ∈ p.1 :: seen := List.mem_cons_of_mem _ hkey
      simp [goMapEntries, hp, lastWrite, ih (p.1 :: seen) hkey', hb]

theorem lastWrite_goMapEntries (m : List (String × GoValue))
    (seen : List String) (key : String) (hkey : key ∉ seen) :
    lastWrite ((goMapEntries seen m).map (fun p => CodeValue.mk p.1 p.2)) key
      = goLookup m key := by
  induction m generalizing seen with
  | nil => rfl
  | cons p rest ih =>
    by_cases hp : p.1 ∈ seen
    · have hne : p.1 ≠ key := fun h => hkey (h ▸ hp)
      simp [goMapEntries, hp, ih seen hkey, goLookup_cons, hne]
    · by_cases hk : p.1 = key
      · have hmem : key ∈ p.1 :: seen := by simp [hk]
        simp [goMapEntries, hp, hk, hkey, lastWrite,
          lastWrite_goMapEntries_none rest (key :: seen) key (by simp),
          goLookup_cons]
      · have hb : (p.1 == key) = false := by simpa using hk
        have hkey' : key ∉ p.1 :: seen := by
          intro h
          rcases List.mem_cons.mp h with h | h
          · exact hk h.symm
          · exact hkey h
        cases hw : goLookup rest key <;>
          simp [goMapEntries, hp, lastWrite, ih (p.1 :: seen) hkey', hw,
            goLookup_cons, hk, hb]

theorem cmdLookup_map_pairs (l : List (String × GoValue)) (key : String) :
    cmdLookup (l.map (fun p => CodeValue.mk p.1 p.2)) key = goLookup l key := by
  induction l with
  | nil => rfl
  | cons p rest ih =>
    by_cases hk : p.1 = key
    · simp [cmdLookup, goLookup_cons, hk, List.find?_cons_of_pos]
    · have hb : (p.1 == key) = false := by simpa using hk
      simpa [cmdLookup, goLookup_cons, List.find?_cons, hb, hk] using ih

theorem lastWrite_append (a b : List CodeValue) (key : String) :
    lastWrite (a ++ b) key = optOr (lastWrite b key) (lastWrite a key) := by
  induction a with
  | nil => cases h : lastWrite b key <;> simp [lastWrite, optOr, h]
  | cons c cs ih =>
    show lastWrite (c :: (cs ++ b)) key = _
    cases h : lastWrite b key <;> cases h2 : lastWrite cs key <;>
      simp [lastWrite, optOr, ih, h, h2]

theorem lastWrite_isSome_iff (l : List CodeValue) (key : String) :
    (lastWrite l key).isSome = true ↔ key ∈ l.map (·.code) := by
  induction l with
  | nil => simp [lastWrite]
  | cons c cs ih =>
    cases h : lastWrite cs key with
    | some v =>
      simp only [lastWrite, h, List.map_cons, List.mem_cons]
      exact ⟨fun _ => Or.inr (ih.mp (by simp [h])), fun _ => by simp⟩
    | none =>
      by_cases hk : c.code = key
      · simp [lastWrite, h, hk]
      · have hb : (c.code == key) = false := by simpa using hk
        have : ¬ key ∈ cs.map (·.code) := fun hmem => by
          have := ih.mpr hmem; rw [h] at this; simp at this
        simp only [lastWrite, h, hb, List.map_cons, List.mem_cons]
        constructor
        · intro hfalse; simp at hfalse
        · rintro (h' | h')
          · exact absurd h'.symm hk
          · exact absurd h' this

theorem allSent_append_single (saves : List (List CodeValue)) (cmds : List CodeValue) :
    allSent (saves ++ [cmds]) = allSent saves ++ cmds := by
  simp [allSent, List.foldl_append]

theorem applySaves_append_single (store : DStore) (id : String) (now : Int)
    (saves : List (List CodeValue)) (cmds : List CodeValue) :
    applySaves store id now (saves ++ [cmds])
      = saveDeviceState (applySaves store id now saves) id cmds now := by
  simp [applySaves, List.foldl_append]

theorem applySaves_lookup (store0 : DStore) (id : String) (now : Int)
    (saves : List (List CodeValue)) (h0 : store0 id = none) (hne : saves ≠ []) :
    ∃ m : List (String × GoValue),
      applySaves store0 id now saves id
        = some ⟨id, (goMapEntries [] m).map (fun p => CodeValue.mk p.1 p.2), now⟩
      ∧ ∀ key, goLookup m key = lastWrite (allSent saves) key := by
  induction saves using List.reverseRecOn with
  | nil => exact absurd rfl hne
  | append_singleton l a ih =>
    rw [applySaves_append_single]
    by_cases hl : l = []
    · subst hl
      refine ⟨buildCommandMap a [], ?_, ?_⟩
      · simp [applySaves, saveDeviceState, getDeviceState, h0]
      · intro key
        rw [goLookup_buildCommandMap]
        cases h : lastWrite a key <;>
          simp [optOr, goLookup_nil, allSent, h]
    · obtain ⟨m, hstore, hsem⟩ := ih hl
      refine ⟨buildCommandMap a (buildCommandMap
        ((goMapEntries [] m).map (fun p => CodeValue.mk p.1 p.2)) []), ?_, ?_⟩
      · simp [saveDeviceState, getDeviceState, hstore]
      · intro key
        rw [goLookup_buildCommandMap, goLookup_buildCommandMap,
          allSent_append_single, lastWrite_append]
        have h1 : lastWrite ((goMapEntries [] m).map (fun p => CodeValue.mk p.1 p.2)) key
            = goLookup m key := lastWrite_goMapEntries m [] key (by simp)
        rw [h1, hsem key]
        cases h : lastWrite a key <;> cases h2 : lastWrite (allSent l) key <;>
          simp [optOr, goLookup_nil, h, h2]

/-- C1: starting from a device with no persisted state, after any non-empty
sequence of `SaveDeviceState` calls (with possibly-overlapping command codes)
a subsequent `GetDeviceState` returns a record whose commands contain exactly
the union of all codes ever sent, each mapped to the value of its most recent
write — so a later temperature-only command cannot erase an earlier
power/mode entry. -/
theorem saveState_merge_invariant (store0 : DStore) (id : String) (now : Int)
    (saves : List (List CodeValue)) (h0 : store0 id = none) (hne : saves ≠ []) :
    ∃ rec : DeviceStateRec,
      getDeviceState (applySaves store0 id now saves) id = some rec
      ∧ rec.deviceID = id
      ∧ (∀ key, cmdLookup rec.lastCommands key = lastWrite (allSent saves) key)
      ∧ (∀ key, (cmdLookup rec.lastCommands key).isSome = true ↔
            key ∈ (allSent saves).map (·.code)) := by
  obtain ⟨m, hstore, hsem⟩ := applySaves_lookup store0 id now saves h0 hne
  refine ⟨_, hstore, rfl, ?_, ?_⟩
  · intro key
    rw [show (⟨id, (goMapEntries [] m).map (fun p => CodeValue.mk p.1 p.2), now⟩ :
        DeviceStateRec).lastCommands
      = (goMapEntries [] m).map (fun p => CodeValue.mk p.1 p.2) from rfl]
    rw [cmdLookup_map_pairs, goLookup_goMapEntries _ _ _ (by simp), hsem]
  · intro key
    rw [show (⟨id, (goMapEntries [] m).map (fun p => CodeValue.mk p.1 p.2), now⟩ :
        DeviceStateRec).lastCommands
      = (goMapEntries [] m).map (fun p => CodeValue.mk p.1 p.2) from rfl]
    rw [cmdLookup_map_pairs, goLookup_goMapEntries _ _ _ (by simp), hsem,
      lastWrite_isSome_iff]

/-- Witness for C1 at a concrete input: save `{power, mode}` then a
temperature-only `{temp}` command; the merged state keeps all three codes. -/
theorem saveState_merge_invariant_witness :
    ((fun _ => none : DStore) "ac1" = none)
    ∧ ([[⟨"power", GoValue.vInt 1⟩, ⟨"mode", GoValue.vInt 2⟩],
        [⟨"temp", GoValue.vInt 24⟩]] : List (List CodeValue)) ≠ []
    ∧ ∃ rec : DeviceStateRec,
      getDeviceState (applySaves (fun _ => none) "ac1" 5
        [[⟨"power", GoValue.vInt 1⟩, ⟨"mode", GoValue.vInt 2⟩],
         [⟨"temp", GoValue.vInt 24⟩]]) "ac1" = some rec
      ∧ rec.deviceID = "ac1"
      ∧ (∀ key, cmdLookup rec.lastCommands key =
          lastWrite (allSent [[⟨"power", GoValue.vInt 1⟩, ⟨"mode", GoValue.vInt 2⟩],
            [⟨"temp", GoValue.vInt 24⟩]]) key)
      ∧ (∀ key, (cmdLookup rec.lastCommands key).isSome = true ↔
          key ∈ (allSent [[⟨"power", GoValue.vInt 1⟩, ⟨"mode", GoValue.vInt 2⟩],
            [⟨"temp", GoValue.vInt 24⟩]]).map (·.code)) :=
  ⟨rfl, by simp,
    saveState_merge_invariant (fun _ => none) "ac1" 5 _ rfl (by simp)⟩

/- ### Device Detail Resolver (`TuyaGetDeviceByIDUseCase.GetDeviceByID`,
src/backend/domain/tuya/usecases/tuya_get_device_by_id_usecase.go)

Only the status computation (steps 3–5: transform, default synthesis, state
overlay) is modelled; the signing, HTTP fetch and cache read/write around it
do not touch the status list. -/

/-- The four default status entries synthesized for an `infrared_ac` device
whose upstream status list is empty. -/
def defaultIRStatus : List CodeValue :=
  [⟨"power", GoValue.vInt 0⟩, ⟨"temp", GoValue.vInt 24⟩,
   ⟨"mode", GoValue.vInt 0⟩, ⟨"wind", GoValue.vInt 0⟩]

/-- Steps 3–4: the upstream status list, replaced by the four defaults when
the device is an `infrared_ac` with an empty status list. -/
def baseStatus (category : String) (upstream : List CodeValue) : List CodeValue :=
  if category == "infrared_ac" && upstream.isEmpty then defaultIRStatus
  else upstream

/-- Step 5: overlay the persisted state (when present and non-empty) onto the
status list — only values of codes already present are updated. -/
def overlaySavedState (statusDTOs : List CodeValue)
    (saved : Option (List CodeValue)) : List CodeValue :=
  match saved with
  | some cmds =>
    if 0 < cmds.length then
      let stateMap := buildCommandMap cmds []
      statusDTOs.map (fun s =>
        match goLookup stateMap s.code with
        | some v => CodeValue.mk s.code v
        | none => s)
    else statusDTOs
  | none => statusDTOs

/-- The status list computed by `GetDeviceByID` on a cache miss. -/
def getDeviceByIDStatus (category : String) (upstream : List CodeValue)
    (saved : Option (List CodeValue)) : List CodeValue :=
  overlaySavedState (baseStatus category upstream) saved

theorem overlaySavedState_codes (statusDTOs : List CodeValue)
    (saved : Option (List CodeValue)) :
    (overlaySavedState statusDTOs saved).map (·.code)
      = statusDTOs.map (·.code) := by
  cases saved with
  | none => rfl
  | some cmds =>
    by_cases h : 0 < cmds.length
    · simp only [overlaySavedState, h, if_pos, List.map_map]
      congr 1
      funext s
      show (match goLookup (buildCommandMap cmds []) s.code with
            | some v => CodeValue.mk s.code v
            | none => s).code = s.code
      cases goLookup (buildCommandMap cmds []) s.code <;> rfl
    · simp [overlaySavedState, h]

/-- C2: `GetDeviceByID` never introduces a status code absent from the
upstream response or from the four `infrared_ac` defaults; the state overlay
preserves the code list of steps 3–4 exactly (it neither adds nor removes
codes, and only rewrites values). -/
theorem getDeviceByID_status_overlay_invariant (category : String)
    (upstream : List CodeValue) (saved : Option (List CodeValue)) :
    (getDeviceByIDStatus category upstream saved).map (·.code)
      = (baseStatus category upstream).map (·.code)
    ∧ ∀ s ∈ getDeviceByIDStatus category upstream saved,
        s.code ∈ upstream.map (·.code)
        ∨ s.code ∈ defaultIRStatus.map (·.code) := by
  refine ⟨overlaySavedState_codes _ _, ?_⟩
  intro s hs
  have h1 : s.code ∈ (baseStatus category upstream).map (·.code) := by
    rw [← overlaySavedState_codes (baseStatus category upstream) saved]
    exact List.mem_map_of_mem _ hs
  by_cases h : category == "infrared_ac" && upstream.isEmpty
  · right; rwa [baseStatus, if_pos h] at h1
  · left; rwa [baseStatus, if_neg h] at h1

/- ### Device aggregation (`TuyaGetAllDevicesUseCase`,
src/backend/usecases/tuya_get_all_devices_usecase.go) -/

/-- The scalar fields of `TuyaDeviceDTO`.  Lean structures cannot be
recursive, so the recursive `Collections` field is split into `Device`
below; in the Go source all fields live in one struct. -/
structure DeviceCore where
  id : String
  remoteID : String
  name : String
  remoteName : String
  category : String
  remoteCategory : String
  productName : String
  remoteProductName : String
  online : Bool
  icon : String
  remoteIcon : String
  status : List CodeValue
  customName : String
  model : String
  ip : String
  localKey : String
  gatewayID : String
  createTime : Int
  updateTime : Int
deriving DecidableEq, Repr

/-- `TuyaDeviceDTO`: the scalar fields plus the nested `Collections` list. -/
inductive Device where
  | mk (core : DeviceCore) (collections : List Device)

def Device.core : Device → DeviceCore
  | .mk c _ => c

def Device.collections : Device → List Device
  | .mk _ cols => cols

def Device.id (d : Device) : String := d.core.id
def Device.remoteID (d : Device) : String := d.core.remoteID
def Device.name (d : Device) : String := d.core.name
def Device.category (d : Device) : String := d.core.category
def Device.remoteCategory (d : Device) : String := d.core.remoteCategory
def Device.productName (d : Device) : String := d.core.productName
def Device.remoteProductName (d : Device) : String := d.core.remoteProductName
def Device.icon (d : Device) : String := d.core.icon
def Device.localKey (d : Device) : String := d.core.localKey
def Device.gatewayID (d : Device) : String := d.core.gatewayID
def Device.createTime (d : Device) : Int := d.core.createTime
def Device.updateTime (d : Device) : Int := d.core.updateTime

/-- `finalDevices[targetIdx].Collections = append(..., ir)`. -/
def Device.pushCollection (d : Device) (ir : Device) : Device :=
  .mk d.core (d.collections ++ [ir])

/-- In-place update of one list position (Go slice element assignment);
out-of-range indices leave the list unchanged (they do not occur). -/
def modifyAt {α : Type} : List α → Nat → (α → α) → List α
  | [], _, _ => []
  | x :: xs, 0, f => f x :: xs
  | x :: xs, n + 1, f => x :: modifyAt xs n f

/-- Go's index-carrying `for i, d := range` enumeration. -/
def goEnum {α : Type} (i : Nat) : List α → List (Nat × α)
  | [] => []
  | x :: xs => (i, x) :: goEnum (i + 1) xs

/-- Step 2 of `processResponseMode0`: positions of the Smart-IR hubs
(`category == "wnykq"`) in the non-IR list. -/
def smartIRIndices (final : List Device) : List Nat :=
  ((goEnum 0 final).filter (fun p => p.2.category == "wnykq")).map (·.1)

/-- One step of building the hub lookup maps: read `finalDevices[idx]` and
record id → index plus (when non-empty) localKey → index.  The `none`
branch of `get?` is unreachable because the indices come from enumerating
`final`. -/
def mode0MapStep (final : List Device)
    (maps : List (String × Nat) × List (String × Nat)) (idx : Nat) :
    List (String × Nat) × List (String × Nat) :=
  match final.get? idx with
  | some hub =>
    (goInsert maps.1 hub.id idx,
     if hub.localKey ≠ "" then goInsert maps.2 hub.localKey idx else maps.2)
  | none => maps

/-- The two hub lookup maps of `processResponseMode0`: hub id → index and
(non-empty) hub localKey → index. -/
def buildMode0HubMaps (final : List Device) (idxs : List Nat) :
    List (String × Nat) × List (String × Nat) :=
  idxs.foldl (mode0MapStep final) ([], [])

/-- Step 3 of `processResponseMode0`: attach each IR device to a hub by
gatewayID (strategy 1) or localKey (strategy 2), else keep it as an orphan. -/
def attachIRs (hubIDMap hubLocalKeyMap : List (String × Nat)) :
    List Device → List Device → List Device × List Device
  | final, [] => (final, [])
  | final, ir :: rest =>
    match goLookup hubIDMap ir.gatewayID with
    | some idx =>
      attachIRs hubIDMap hubLocalKeyMap
        (modifyAt final idx (fun h => h.pushCollection ir)) rest
    | none =>
      match goLookup hubLocalKeyMap ir.localKey with
      | some idx =>
        attachIRs hubIDMap hubLocalKeyMap
          (modifyAt final idx (fun h => h.pushCollection ir)) rest
      | none =>
        let res := attachIRs hubIDMap hubLocalKeyMap final rest
        (res.1, ir :: res.2)

/-- `processResponseMode0`: nest IR remotes inside Smart-IR hubs. -/
def processResponseMode0 (deviceDTOs : List Device) : List Device :=
  let irDevices := deviceDTOs.filter (fun d => d.category == "infrared_ac")
  let finalDevices := deviceDTOs.filter (fun d => !(d.category == "infrared_ac"))
  let idxs := smartIRIndices finalDevices
  if idxs.isEmpty || irDevices.isEmpty then finalDevices ++ irDevices
  else
    let maps := buildMode0HubMaps finalDevices idxs
    let res := attachIRs maps.1 maps.2 finalDevices irDevices
    res.1 ++ res.2

/-- C4: in Mode 0, a hub (`wnykq`, id `H`) and an IR remote with
`gatewayID = H` aggregate to exactly one top-level device — the hub — with
`collections = [remote]`; and an IR remote with empty `gatewayID` whose
localKey matches no hub's non-empty localKey stays a top-level orphan,
unchanged. -/
theorem mode0_roundtrip (hub remote orphan : Device)
    (hcatH : hub.category = "wnykq")
    (hcatR : remote.category = "infrared_ac")
    (hgw : remote.gatewayID = hub.id)
    (hcols : hub.collections = [])
    (hcatO : orphan.category = "infrared_ac")
    (hogw : orphan.gatewayID = "")
    (hid : hub.id ≠ "")
    (holk : hub.localKey = "" ∨ orphan.localKey ≠ hub.localKey) :
    processResponseMode0 [hub, remote] = [Device.mk hub.core [remote]]
    ∧ processResponseMode0 [hub, orphan] = [hub, orphan] := by
  have f1 : (hub.category == "infrared_ac") = false := by rw [hcatH]; rfl
  have f3 : (hub.category == "wnykq") = true := by rw [hcatH]; rfl
  constructor
  · have f2 : (remote.category == "infrared_ac") = true := by rw [hcatR]; rfl
    simp [processResponseMode0, smartIRIndices, goEnum, buildMode0HubMaps, mode0MapStep,
      attachIRs, modifyAt, Device.pushCollection, f1, f2, f3, hgw, hcols,
      goLookup_goInsert, goLookup_nil]
  · have f2 : (orphan.category == "infrared_ac") = true := by rw [hcatO]; rfl
    by_cases hlk0 : hub.localKey = ""
    · simp [processResponseMode0, smartIRIndices, goEnum, buildMode0HubMaps, mode0MapStep,
        attachIRs, modifyAt, f1, f2, f3, hogw, hid, hlk0,
        goLookup_goInsert, goLookup_nil]
    · have holk2 : orphan.localKey ≠ hub.localKey := by
        rcases holk with h | h
        · exact absurd h hlk0
        · exact h
      have hne : hub.localKey ≠ orphan.localKey := fun h => holk2 h.symm
      simp [processResponseMode0, smartIRIndices, goEnum, buildMode0HubMaps, mode0MapStep,
        attachIRs, modifyAt, f1, f2, f3, hogw, hid, hlk0, hne,
        goLookup_goInsert, goLookup_nil]

/-- A blank `DeviceCore` used to build the concrete devices of witnesses. -/
def blankCore : DeviceCore :=
  ⟨"", "", "", "", "", "", "", "", false, "", "", [], "", "", "", "", "", 0, 0⟩

def c4Hub : Device :=
  .mk { blankCore with id := "H1", category := "wnykq", localKey := "K1" } []

def c4Remote : Device :=
  .mk { blankCore with id := "R1", category := "infrared_ac", gatewayID := "H1" } []

def c4Orphan : Device :=
  .mk { blankCore with id := "R2", category := "infrared_ac", localKey := "X" } []

/-- Witness for C4 at concrete devices. -/
theorem mode0_roundtrip_witness :
    (c4Hub.category = "wnykq" ∧ c4Remote.category = "infrared_ac"
      ∧ c4Remote.gatewayID = c4Hub.id ∧ c4Hub.collections = []
      ∧ c4Orphan.category = "infrared_ac" ∧ c4Orphan.gatewayID = ""
      ∧ c4Hub.id ≠ "" ∧ c4Orphan.localKey ≠ c4Hub.localKey)
    ∧ processResponseMode0 [c4Hub, c4Remote] = [Device.mk c4Hub.core [c4Remote]]
    ∧ processResponseMode0 [c4Hub, c4Orphan] = [c4Hub, c4Orphan] :=
  ⟨⟨rfl, rfl, rfl, rfl, rfl, rfl, by decide, by decide⟩,
    mode0_roundtrip c4Hub c4Remote c4Orphan rfl rfl rfl rfl rfl rfl
      (by decide) (Or.inr (by decide))⟩

/-- A device with its collections cleared (used to state conservation:
attaching remotes changes only the `collections` field of a hub). -/
def stripCollections (d : Device) : Device := .mk d.core []

/-- Flatten a device list: each device contributes its collections-cleared
self plus its collection members. -/
def flattenDevices : List Device → List Device
  | [] => []
  | d :: ds => (stripCollections d :: d.collections) ++ flattenDevices ds

theorem flattenDevices_append (a b : List Device) :
    flattenDevices (a ++ b) = flattenDevices a ++ flattenDevices b := by
  induction a with
  | nil => rfl
  | cons d ds ih => simp [flattenDevices, ih, List.append_assoc]

theorem stripCollections_eq_self (d : Device) (h : d.collections = []) :
    stripCollections d = d := by
  cases d with
  | mk c cols =>
    have hc : cols = [] := h
    subst hc
    rfl

theorem flattenDevices_eq_self (l : List Device)
    (h : ∀ d ∈ l, d.collections = []) : flattenDevices l = l := by
  induction l with
  | nil => rfl
  | cons d ds ih =>
    have hd := h d (List.mem_cons_self d ds)
    rw [flattenDevices, stripCollections_eq_self d hd, hd,
      ih (fun x hx => h x (List.mem_cons_of_mem d hx))]
    rfl

theorem modifyAt_length {α : Type} (l : List α) (f : α → α) :
    ∀ n, (modifyAt l n f).length = l.length := by
  induction l with
  | nil => intro n; rfl
  | cons x xs ih =>
    intro n
    cases n with
    | zero => rfl
    | succ n => simp [modifyAt, ih n]


open List in
theorem flattenDevices_modifyAt_perm (l : List Device) (ir : Device) :
    ∀ idx, idx < l.length →
      List.Perm (flattenDevices (modifyAt l idx (fun h => h.pushCollection ir)))
        (ir :: flattenDevices l) := by
  induction l with
  | nil => intro idx h; simp at h
  | cons x xs ih =>
    intro idx h
    cases idx with
    | zero =>
      have hstrip : stripCollections (x.pushCollection ir) = stripCollections x := by
        cases x; rfl
      have hcols : (x.pushCollection ir).collections = x.collections ++ [ir] := by
        cases x; rfl
      show List.Perm (flattenDevices (x.pushCollection ir :: xs)) _
      rw [flattenDevices, hstrip, hcols]
      calc (stripCollections x :: (x.collections ++ [ir])) ++ flattenDevices xs
          = stripCollections x :: (x.collections ++ (ir :: flattenDevices xs)) := by
            simp [List.append_assoc]
        _ ~ stripCollections x :: (ir :: (x.collections ++ flattenDevices xs)) :=
            List.Perm.cons _ List.perm_middle
        _ ~ ir :: stripCollections x :: (x.collections ++ flattenDevices xs) :=
            List.Perm.swap _ _ _
        _ = ir :: flattenDevices (x :: xs) := by simp [flattenDevices]
    | succ n =>
      show List.Perm (flattenDevices (x :: modifyAt xs n _)) _
      rw [flattenDevices, flattenDevices]
      calc (stripCollections x :: x.collections)
            ++ flattenDevices (modifyAt xs n (fun h => h.pushCollection ir))
          ~ (stripCollections x :: x.collections) ++ (ir :: flattenDevices xs) :=
            List.Perm.append_left _ (ih n (Nat.lt_of_succ_lt_succ h))
        _ ~ ir :: ((stripCollections x :: x.collections) ++ flattenDevices xs) :=
            List.perm_middle

theorem goLookup_eq_some_mem {α : Type} (m : List (String × α)) (k : String) (v : α)
    (h : goLookup m k = some v) : (k, v) ∈ m := by
  unfold goLookup at h
  cases hf : m.find? (fun p => p.1 == k) with
  | none => simp [hf] at h
  | some p =>
    rw [hf] at h
    simp only [Option.map_some'] at h
    have hmem := List.mem_of_find?_eq_some hf
    have hk := List.find?_some hf
    obtain ⟨p1, p2⟩ := p
    have h1 : p1 = k := by simpa using hk
    have h2 : p2 = v := by simpa using h
    subst h1; subst h2
    exact hmem

theorem mode0MapStep_bound (final : List Device)
    (maps : List (String × Nat) × List (String × Nat)) (idx : Nat)
    (h1 : ∀ p ∈ maps.1, p.2 < final.length)
    (h2 : ∀ p ∈ maps.2, p.2 < final.length) :
    (∀ p ∈ (mode0MapStep final maps idx).1, p.2 < final.length)
    ∧ (∀ p ∈ (mode0MapStep final maps idx).2, p.2 < final.length) := by
  cases hget : final.get? idx with
  | none =>
    simp only [mode0MapStep, hget]
    exact ⟨h1, h2⟩
  | some hub =>
    have hidx : idx < final.length := (List.get?_eq_some.mp hget).1
    simp only [mode0MapStep, hget, goInsert]
    constructor
    · intro p hp
      rcases List.mem_cons.mp hp with rfl | hp
      · exact hidx
      · exact h1 p hp
    · intro p hp
      by_cases hlk : hub.localKey ≠ ""
      · rw [if_pos hlk] at hp
        rcases List.mem_cons.mp hp with rfl | hp
        · exact hidx
        · exact h2 p hp
      · rw [if_neg hlk] at hp
        exact h2 p hp

theorem buildMode0HubMaps_bound (final : List Device) (idxs : List Nat) :
    (∀ p ∈ (buildMode0HubMaps final idxs).1, p.2 < final.length)
    ∧ (∀ p ∈ (buildMode0HubMaps final idxs).2, p.2 < final.length) := by
  have haux : ∀ (idxs : List Nat) (acc : List (String × Nat) × List (String × Nat)),
      (∀ p ∈ acc.1, p.2 < final.length) → (∀ p ∈ acc.2, p.2 < final.length) →
      (∀ p ∈ (idxs.foldl (mode0MapStep final) acc).1, p.2 < final.length)
      ∧ (∀ p ∈ (idxs.foldl (mode0MapStep final) acc).2, p.2 < final.length) := by
    intro idxs
    induction idxs with
    | nil => intro acc h1 h2; exact ⟨h1, h2⟩
    | cons idx rest ih =>
      intro acc h1 h2
      obtain ⟨g1, g2⟩ := mode0MapStep_bound final acc idx h1 h2
      exact ih (mode0MapStep final acc idx) g1 g2
  exact haux idxs ([], []) (by simp) (by simp)

open List in
theorem attachIRs_spec (m1 m2 : List (String × Nat)) :
    ∀ (irs final : List Device),
      (∀ p ∈ m1, p.2 < final.length) → (∀ p ∈ m2, p.2 < final.length) →
      List.Perm
        (flattenDevices (attachIRs m1 m2 final irs).1
          ++ (attachIRs m1 m2 final irs).2)
        (flattenDevices final ++ irs)
      ∧ (∀ d ∈ (attachIRs m1 m2 final irs).2, d ∈ irs) := by
  intro irs
  induction irs with
  | nil =>
    intro final h1 h2
    exact ⟨by simp [attachIRs], by simp [attachIRs]⟩
  | cons ir rest ih =>
    intro final h1 h2
    cases hg : goLookup m1 ir.gatewayID with
    | some idx =>
      have hidx : idx < final.length := h1 _ (goLookup_eq_some_mem _ _ _ hg)
      have hlen : (modifyAt final idx (fun h => h.pushCollection ir)).length
          = final.length := modifyAt_length final _ idx
      obtain ⟨hperm, hsub⟩ := ih (modifyAt final idx (fun h => h.pushCollection ir))
        (by rw [hlen]; exact h1) (by rw [hlen]; exact h2)
      constructor
      · simp only [attachIRs, hg]
        refine hperm.trans ?_
        calc flattenDevices (modifyAt final idx (fun h => h.pushCollection ir)) ++ rest
            ~ (ir :: flattenDevices final) ++ rest :=
              List.Perm.append_right rest (flattenDevices_modifyAt_perm final ir idx hidx)
          _ = ir :: (flattenDevices final ++ rest) := rfl
          _ ~ flattenDevices final ++ (ir :: rest) := List.perm_middle.symm
      · intro d hd
        simp only [attachIRs, hg] at hd
        exact List.mem_cons_of_mem _ (hsub d hd)
    | none =>
      cases hk : goLookup m2 ir.localKey with
      | some idx =>
        have hidx : idx < final.length := h2 _ (goLookup_eq_some_mem _ _ _ hk)
        have hlen : (modifyAt final idx (fun h => h.pushCollection ir)).length
            = final.length := modifyAt_length final _ idx
        obtain ⟨hperm, hsub⟩ := ih (modifyAt final idx (fun h => h.pushCollection ir))
          (by rw [hlen]; exact h1) (by rw [hlen]; exact h2)
        constructor
        · simp only [attachIRs, hg, hk]
          refine hperm.trans ?_
          calc flattenDevices (modifyAt final idx (fun h => h.pushCollection ir)) ++ rest
              ~ (ir :: flattenDevices final) ++ rest :=
                List.Perm.append_right rest (flattenDevices_modifyAt_perm final ir idx hidx)
            _ = ir :: (flattenDevices final ++ rest) := rfl
            _ ~ flattenDevices final ++ (ir :: rest) := List.perm_middle.symm
        · intro d hd
          simp only [attachIRs, hg, hk] at hd
          exact List.mem_cons_of_mem _ (hsub d hd)
      | none =>
        obtain ⟨hperm, hsub⟩ := ih final h1 h2
        constructor
        · simp only [attachIRs, hg, hk]
          calc flattenDevices (attachIRs m1 m2 final rest).1
                ++ (ir :: (attachIRs m1 m2 final rest).2)
              ~ ir :: (flattenDevices (attachIRs m1 m2 final rest).1
                  ++ (attachIRs m1 m2 final rest).2) := List.perm_middle
            _ ~ ir :: (flattenDevices final ++ rest) := List.Perm.cons ir hperm
            _ ~ flattenDevices final ++ (ir :: rest) := List.perm_middle.symm
        · intro d hd
          simp only [attachIRs, hg, hk] at hd
          rcases List.mem_cons.mp hd with rfl | hd
          · exact List.mem_cons_self _ _
          · exact List.mem_cons_of_mem _ (hsub d hd)

theorem mem_modifyAt {α : Type} (l : List α) (n : Nat) (f : α → α) :
    ∀ d ∈ modifyAt l n f, d ∈ l ∨ ∃ x ∈ l, d = f x := by
  induction l generalizing n with
  | nil => intro d hd; simp [modifyAt] at hd
  | cons x xs ih =>
    intro d hd
    cases n with
    | zero =>
      rcases List.mem_cons.mp hd with h | h
      · exact Or.inr ⟨x, List.mem_cons_self _ _, h⟩
      · exact Or.inl (List.mem_cons_of_mem _ h)
    | succ n =>
      rcases List.mem_cons.mp hd with h | h
      · exact Or.inl (h ▸ List.mem_cons_self _ _)
      · rcases ih n d h with h2 | ⟨y, hy, hdy⟩
        · exact Or.inl (List.mem_cons_of_mem _ h2)
        · exact Or.inr ⟨y, List.mem_cons_of_mem _ hy, hdy⟩

theorem modifyAt_push_collections (final : List Device) (idx : Nat) (ir : Device)
    (hfin : ∀ d ∈ final, ∀ c ∈ d.collections, c.category = "infrared_ac")
    (hir : ir.category = "infrared_ac") :
    ∀ d ∈ modifyAt final idx (fun h => h.pushCollection ir),
      ∀ c ∈ d.collections, c.category = "infrared_ac" := by
  intro d hd c hc
  rcases mem_modifyAt final idx _ d hd with h | ⟨x, hx, rfl⟩
  · exact hfin d h c hc
  · have hmem : c ∈ x.collections ++ [ir] := by
      cases x; exact hc
    rcases List.mem_append.mp hmem with h2 | h2
    · exact hfin x hx c h2
    · have : c = ir := by simpa using h2
      exact this ▸ hir

theorem attachIRs_collections (m1 m2 : List (String × Nat)) :
    ∀ (irs final : List Device),
      (∀ d ∈ final, ∀ c ∈ d.collections, c.category = "infrared_ac") →
      (∀ ir ∈ irs, ir.category = "infrared_ac") →
      ∀ d ∈ (attachIRs m1 m2 final irs).1, ∀ c ∈ d.collections,
        c.category = "infrared_ac" := by
  intro irs
  induction irs with
  | nil =>
    intro final hfin hirs
    simpa [attachIRs] using hfin
  | cons ir rest ih =>
    intro final hfin hirs
    have hir : ir.category = "infrared_ac" := hirs ir (List.mem_cons_self _ _)
    have hrest : ∀ x ∈ rest, x.category = "infrared_ac" :=
      fun x hx => hirs x (List.mem_cons_of_mem _ hx)
    cases hg : goLookup m1 ir.gatewayID with
    | some idx =>
      intro d hd
      simp only [attachIRs, hg] at hd
      exact ih _ (modifyAt_push_collections final idx ir hfin hir) hrest d hd
    | none =>
      cases hk : goLookup m2 ir.localKey with
      | some idx =>
        intro d hd
        simp only [attachIRs, hg, hk] at hd
        exact ih _ (modifyAt_push_collections final idx ir hfin hir) hrest d hd
      | none =>
        intro d hd
        simp only [attachIRs, hg, hk] at hd
        exact ih final hfin hrest d hd

/-- C9: Mode 0 conserves devices.  For any input list (whose devices carry
no pre-existing collections, as built by step 5 of the pipeline), flattening
the output — each top-level entry with collections cleared, together with
the members of its collections — is a permutation of the input, so no device
is dropped or duplicated; and every nested collection member is an
`infrared_ac` remote. -/
theorem mode0_conserves_devices (l : List Device)
    (hcols : ∀ d ∈ l, d.collections = []) :
    List.Perm (flattenDevices (processResponseMode0 l)) l
    ∧ ∀ d ∈ processResponseMode0 l, ∀ c ∈ d.collections,
        c.category = "infrared_ac" := by
  have hfl : flattenDevices (l.filter (fun d => !(d.category == "infrared_ac")))
      = l.filter (fun d => !(d.category == "infrared_ac")) :=
    flattenDevices_eq_self _ (fun d hd => hcols d (List.mem_of_mem_filter hd))
  have hfi : flattenDevices (l.filter (fun d => d.category == "infrared_ac"))
      = l.filter (fun d => d.category == "infrared_ac") :=
    flattenDevices_eq_self _ (fun d hd => hcols d (List.mem_of_mem_filter hd))
  have hperm0 : List.Perm
      (l.filter (fun d => !(d.category == "infrared_ac"))
        ++ l.filter (fun d => d.category == "infrared_ac")) l :=
    List.Perm.trans List.perm_append_comm
      (List.filter_append_perm (fun d => d.category == "infrared_ac") l)
  have hirs : ∀ ir ∈ l.filter (fun d => d.category == "infrared_ac"),
      ir.category = "infrared_ac" := by
    intro ir hir
    have := (List.mem_filter.mp hir).2
    simpa using this
  simp only [processResponseMode0]
  by_cases hif : (smartIRIndices
        (l.filter (fun d => !(d.category == "infrared_ac")))).isEmpty
      || (l.filter (fun d => d.category == "infrared_ac")).isEmpty
  · rw [if_pos hif]
    constructor
    · rw [flattenDevices_append, hfl, hfi]
      exact hperm0
    · intro d hd c hc
      have hdl : d ∈ l := by
        rcases List.mem_append.mp hd with h | h
        · exact List.mem_of_mem_filter h
        · exact List.mem_of_mem_filter h
      rw [hcols d hdl] at hc
      simp at hc
  · rw [if_neg hif]
    obtain ⟨hb1, hb2⟩ := buildMode0HubMaps_bound
      (l.filter (fun d => !(d.category == "infrared_ac")))
      (smartIRIndices (l.filter (fun d => !(d.category == "infrared_ac"))))
    obtain ⟨hperm, hsub⟩ := attachIRs_spec _ _
      (l.filter (fun d => d.category == "infrared_ac"))
      (l.filter (fun d => !(d.category == "infrared_ac"))) hb1 hb2
    constructor
    · rw [flattenDevices_append]
      have horph : flattenDevices (attachIRs
            (buildMode0HubMaps (l.filter (fun d => !(d.category == "infrared_ac")))
              (smartIRIndices (l.filter (fun d => !(d.category == "infrared_ac"))))).1
            (buildMode0HubMaps (l.filter (fun d => !(d.category == "infrared_ac")))
              (smartIRIndices (l.filter (fun d => !(d.category == "infrared_ac"))))).2
            (l.filter (fun d => !(d.category == "infrared_ac")))
            (l.filter (fun d => d.category == "infrared_ac"))).2
          = (attachIRs
            (buildMode0HubMaps (l.filter (fun d => !(d.category == "infrared_ac")))
              (smartIRIndices (l.filter (fun d => !(d.category == "infrared_ac"))))).1
            (buildMode0HubMaps (l.filter (fun d => !(d.category == "infrared_ac")))
              (smartIRIndices (l.filter (fun d => !(d.category == "infrared_ac"))))).2
            (l.filter (fun d => !(d.category == "infrared_ac")))
            (l.filter (fun d => d.category == "infrared_ac"))).2 :=
        flattenDevices_eq_self _
          (fun d hd => hcols d (List.mem_of_mem_filter (hsub d hd)))
      rw [horph]
      refine List.Perm.trans hperm ?_
      rw [hfl]
      exact hperm0
    · intro d hd c hc
      rcases List.mem_append.mp hd with h | h
      · exact attachIRs_collections _ _
          (l.filter (fun d => d.category == "infrared_ac"))
          (l.filter (fun d => !(d.category == "infrared_ac")))
          (fun x hx c hc => by
            rw [hcols x (List.mem_of_mem_filter hx)] at hc
            simp at hc)
          hirs d h c hc
      · rw [hcols d (List.mem_of_mem_filter (hsub d h))] at hc
        simp at hc

def c9Hub : Device :=
  .mk { blankCore with id := "H9", category := "wnykq" } []

def c9Remote : Device :=
  .mk { blankCore with id := "R9", category := "infrared_ac", gatewayID := "H9" } []

/-- Witness for C9 at a concrete hub/remote input. -/
theorem mode0_conserves_devices_witness :
    (∀ d ∈ [c9Hub, c9Remote], d.collections = [])
    ∧ List.Perm (flattenDevices (processResponseMode0 [c9Hub, c9Remote]))
        [c9Hub, c9Remote]
    ∧ ∀ d ∈ processResponseMode0 [c9Hub, c9Remote], ∀ c ∈ d.collections,
        c.category = "infrared_ac" := by
  have h : ∀ d ∈ [c9Hub, c9Remote], d.collections = [] := by
    intro d hd
    rcases List.mem_cons.mp hd with rfl | hd
    · rfl
    · rcases List.mem_cons.mp hd with rfl | hd
      · rfl
      · simp at hd
  exact ⟨h, (mode0_conserves_devices [c9Hub, c9Remote] h).1,
    (mode0_conserves_devices [c9Hub, c9Remote] h).2⟩

/- ### Mode 2 (`processResponseMode2`,
src/backend/usecases/tuya_get_all_devices_usecase.go) -/

/-- The synthetic merged device of Mode 2: a copy of the hub with
`remoteID`, name override, `remoteCategory`, `remoteProductName`, `icon`,
`createTime` and `updateTime` taken from the remote. -/
def mergeHubRemote (hub remote : Device) : Device :=
  .mk { hub.core with
    remoteID := remote.id,
    name := remote.name,
    remoteCategory := remote.category,
    remoteProductName := remote.productName,
    icon := remote.icon,
    createTime := remote.createTime,
    updateTime := remote.updateTime } hub.collections

/-- First pass of `processResponseMode2`: index hubs by id and by non-empty
localKey. -/
def buildMode2HubMaps (devices : List Device) :
    List (String × Device) × List (String × Device) :=
  devices.foldl (fun maps d =>
    if d.category == "wnykq" then
      (goInsert maps.1 d.id d,
       if d.localKey ≠ "" then goInsert maps.2 d.localKey d else maps.2)
    else maps) ([], [])

/-- The two-strategy parent-hub search of Mode 2: gatewayID first, then
localKey. -/
def mode2FindHub (hubMap hubLocalKeyMap : List (String × Device))
    (remote : Device) : Option Device :=
  match goLookup hubMap remote.gatewayID with
  | some hub => some hub
  | none => goLookup hubLocalKeyMap remote.localKey

/-- Process the IR remotes: emit a merged device (recording the consumed
hub's id) when a parent hub is found, else pass the remote through. -/
def mode2ProcessRemotes (hubMap hubLocalKeyMap : List (String × Device)) :
    List Device → List Device × List String
  | [] => ([], [])
  | remote :: rest =>
    let res := mode2ProcessRemotes hubMap hubLocalKeyMap rest
    match mode2FindHub hubMap hubLocalKeyMap remote with
    | some hub => (mergeHubRemote hub remote :: res.1, hub.id :: res.2)
    | none => (remote :: res.1, res.2)

/-- Final pass of Mode 2: drop hubs consumed by a merge, keep everything
else. -/
def mode2FilterOthers (used : List String) : List Device → List Device
  | [] => []
  | d :: ds =>
    if d.category == "wnykq" && used.contains d.id then mode2FilterOthers used ds
    else d :: mode2FilterOthers used ds

/-- `processResponseMode2`: merge IR remotes with their hubs into a flat
list. -/
def processResponseMode2 (deviceDTOs : List Device) : List Device :=
  let maps := buildMode2HubMaps deviceDTOs
  let irRemotes := deviceDTOs.filter (fun d => d.category == "infrared_ac")
  let otherDevices := deviceDTOs.filter (fun d => !(d.category == "infrared_ac"))
  let res := mode2ProcessRemotes maps.1 maps.2 irRemotes
  res.1 ++ mode2FilterOthers res.2 otherDevices

/-- C5: in Mode 2, a hub and an IR remote matched to it by gatewayID or by
non-empty localKey produce exactly one synthetic merged device — the hub's
copy keeps the hub's id, takes `remoteID`, name, `remoteCategory`,
`remoteProductName`, icon, createTime and updateTime from the remote — and
no separate top-level hub entry remains; an unmatched hub/remote pair passes
through unchanged. -/
theorem mode2_merge (hub remote hub2 remote2 : Device)
    (hcatH : hub.category = "wnykq")
    (hcatR : remote.category = "infrared_ac")
    (hmatch : remote.gatewayID = hub.id
      ∨ (remote.gatewayID ≠ hub.id ∧ hub.localKey ≠ ""
          ∧ remote.localKey = hub.localKey))
    (hcatH2 : hub2.category = "wnykq")
    (hcatR2 : remote2.category = "infrared_ac")
    (hgw2 : remote2.gatewayID ≠ hub2.id)
    (hlk2 : hub2.localKey = "" ∨ remote2.localKey ≠ hub2.localKey) :
    processResponseMode2 [hub, remote] = [mergeHubRemote hub remote]
    ∧ (mergeHubRemote hub remote).id = hub.id
    ∧ (mergeHubRemote hub remote).remoteID = remote.id
    ∧ (mergeHubRemote hub remote).name = remote.name
    ∧ (mergeHubRemote hub remote).remoteCategory = remote.category
    ∧ (mergeHubRemote hub remote).remoteProductName = remote.productName
    ∧ (mergeHubRemote hub remote).icon = remote.icon
    ∧ (mergeHubRemote hub remote).createTime = remote.createTime
    ∧ (mergeHubRemote hub remote).updateTime = remote.updateTime
    ∧ processResponseMode2 [hub2, remote2] = [remote2, hub2] := by
  refine ⟨?_, rfl, rfl, rfl, rfl, rfl, rfl, rfl, rfl, ?_⟩
  · rcases hmatch with hgw | ⟨hne, hlk, hmt⟩
    · simp [processResponseMode2, buildMode2HubMaps, mode2ProcessRemotes,
        mode2FindHub, mode2FilterOthers, hcatH, hcatR, hgw,
        goLookup_goInsert, goLookup_nil]
    · have hne' : hub.id ≠ remote.gatewayID := fun h => hne h.symm
      simp [processResponseMode2, buildMode2HubMaps, mode2ProcessRemotes,
        mode2FindHub, mode2FilterOthers, hcatH, hcatR, hne', hlk, hmt,
        goLookup_goInsert, goLookup_nil]
  · have hne2 : hub2.id ≠ remote2.gatewayID := fun h => hgw2 h.symm
    rcases hlk2 with hlk0 | hlkne
    · simp [processResponseMode2, buildMode2HubMaps, mode2ProcessRemotes,
        mode2FindHub, mode2FilterOthers, hcatH2, hcatR2, hne2, hlk0,
        goLookup_goInsert, goLookup_nil]
    · have hlkne' : hub2.localKey ≠ remote2.localKey := fun h => hlkne h.symm
      by_cases hlk0 : hub2.localKey = ""
      · simp [processResponseMode2, buildMode2HubMaps, mode2ProcessRemotes,
          mode2FindHub, mode2FilterOthers, hcatH2, hcatR2, hne2, hlk0,
          goLookup_goInsert, goLookup_nil]
      · simp [processResponseMode2, buildMode2HubMaps, mode2ProcessRemotes,
          mode2FindHub, mode2FilterOthers, hcatH2, hcatR2, hne2, hlk0, hlkne',
          goLookup_goInsert, goLookup_nil]

def c5Hub : Device :=
  .mk { blankCore with id := "H5", category := "wnykq", localKey := "K5" } []

def c5Remote : Device :=
  .mk { blankCore with
         id := "R5",
         name := "AC remote",
         category := "infrared_ac",
         productName := "ac",
         icon := "i.png",
         gatewayID := "H5",
         createTime := 3,
         updateTime := 4 } []

def c5Hub2 : Device :=
  .mk { blankCore with id := "H6", category := "wnykq", localKey := "K6" } []

def c5Remote2 : Device :=
  .mk { blankCore with
         id := "R6",
         category := "infrared_ac",
         localKey := "Z" } []

/-- Witness for C5 at concrete devices. -/
theorem mode2_merge_witness :
    (c5Hub.category = "wnykq" ∧ c5Remote.category = "infrared_ac"
      ∧ c5Remote.gatewayID = c5Hub.id
      ∧ c5Hub2.category = "wnykq" ∧ c5Remote2.category = "infrared_ac"
      ∧ c5Remote2.gatewayID ≠ c5Hub2.id
      ∧ c5Remote2.localKey ≠ c5Hub2.localKey)
    ∧ processResponseMode2 [c5Hub, c5Remote] = [mergeHubRemote c5Hub c5Remote]
    ∧ (mergeHubRemote c5Hub c5Remote).id = c5Hub.id
    ∧ (mergeHubRemote c5Hub c5Remote).remoteID = c5Remote.id
    ∧ processResponseMode2 [c5Hub2, c5Remote2] = [c5Remote2, c5Hub2] := by
  have h := mode2_merge c5Hub c5Remote c5Hub2 c5Remote2 rfl rfl
    (Or.inl rfl) rfl rfl (by decide) (Or.inr (by decide))
  exact ⟨⟨rfl, rfl, rfl, rfl, rfl, by decide, by decide⟩,
    h.1, h.2.1, h.2.2.1, h.2.2.2.2.2.2.2.2.2⟩

/-- C10: in Mode 2, two IR remotes matched to the same hub each produce a
merged device carrying that hub's id — so top-level ids are not unique —
and the standalone hub entry is omitted exactly once. -/
theorem mode2_shared_hub (hub r1 r2 : Device)
    (hcatH : hub.category = "wnykq")
    (hcat1 : r1.category = "infrared_ac")
    (hcat2 : r2.category = "infrared_ac")
    (hm1 : r1.gatewayID = hub.id
      ∨ (r1.gatewayID ≠ hub.id ∧ hub.localKey ≠ "" ∧ r1.localKey = hub.localKey))
    (hm2 : r2.gatewayID = hub.id
      ∨ (r2.gatewayID ≠ hub.id ∧ hub.localKey ≠ "" ∧ r2.localKey = hub.localKey)) :
    processResponseMode2 [hub, r1, r2]
      = [mergeHubRemote hub r1, mergeHubRemote hub r2]
    ∧ (processResponseMode2 [hub, r1, r2]).map Device.id = [hub.id, hub.id] := by
  have hmain : processResponseMode2 [hub, r1, r2]
      = [mergeHubRemote hub r1, mergeHubRemote hub r2] := by
    rcases hm1 with hgw1 | ⟨hne1, hlk, hmt1⟩ <;>
      rcases hm2 with hgw2 | ⟨hne2, hlk2, hmt2⟩
    · simp [processResponseMode2, buildMode2HubMaps, mode2ProcessRemotes,
        mode2FindHub, mode2FilterOthers, hcatH, hcat1, hcat2, hgw1, hgw2,
        goLookup_goInsert, goLookup_nil]
    · have hne2' : hub.id ≠ r2.gatewayID := fun h => hne2 h.symm
      simp [processResponseMode2, buildMode2HubMaps, mode2ProcessRemotes,
        mode2FindHub, mode2FilterOthers, hcatH, hcat1, hcat2, hgw1, hne2',
        hlk2, hmt2, goLookup_goInsert, goLookup_nil]
    · have hne1' : hub.id ≠ r1.gatewayID := fun h => hne1 h.symm
      simp [processResponseMode2, buildMode2HubMaps, mode2ProcessRemotes,
        mode2FindHub, mode2FilterOthers, hcatH, hcat1, hcat2, hgw2, hne1',
        hlk, hmt1, goLookup_goInsert, goLookup_nil]
    · have hne1' : hub.id ≠ r1.gatewayID := fun h => hne1 h.symm
      have hne2' : hub.id ≠ r2.gatewayID := fun h => hne2 h.symm
      simp [processResponseMode2, buildMode2HubMaps, mode2ProcessRemotes,
        mode2FindHub, mode2FilterOthers, hcatH, hcat1, hcat2, hne1', hne2',
        hlk, hmt1, hmt2, goLookup_goInsert, goLookup_nil]
  refine ⟨hmain, ?_⟩
  rw [hmain]
  rfl

def c10R1 : Device :=
  .mk { blankCore with
         id := "R7",
         category := "infrared_ac",
         gatewayID := "H5" } []

def c10R2 : Device :=
  .mk { blankCore with
         id := "R8",
         category := "infrared_ac",
         localKey := "K5" } []

/-- Witness for C10: one remote matches `c5Hub` by gatewayID, the other by
localKey. -/
theorem mode2_shared_hub_witness :
    (c5Hub.category = "wnykq" ∧ c10R1.category = "infrared_ac"
      ∧ c10R2.category = "infrared_ac" ∧ c10R1.gatewayID = c5Hub.id
      ∧ c10R2.gatewayID ≠ c5Hub.id ∧ c5Hub.localKey ≠ ""
      ∧ c10R2.localKey = c5Hub.localKey)
    ∧ processResponseMode2 [c5Hub, c10R1, c10R2]
        = [mergeHubRemote c5Hub c10R1, mergeHubRemote c5Hub c10R2]
    ∧ (processResponseMode2 [c5Hub, c10R1, c10R2]).map Device.id
        = [c5Hub.id, c5Hub.id] := by
  have h := mode2_shared_hub c5Hub c10R1 c10R2 rfl rfl rfl
    (Or.inl rfl) (Or.inr ⟨by decide, by decide, rfl⟩)
  exact ⟨⟨rfl, rfl, rfl, rfl, by decide, by decide, rfl⟩, h.1, h.2⟩

/- ### Command Dispatcher (`TuyaDeviceControlUseCase`,
src/backend/domain/tuya/usecases/tuya_auth_usecase.go)

`SendCommand` and `SendIRACCommand` are modelled as pure functions over an
explicit environment carrying the upstream responses, the clock readings
(`clock n` is the value of the n-th `time.Now()` call), the store contents
and the success of the best-effort side effects; they return the trace of
outgoing requests, the call's outcome, and the updated stores.  JSON
marshalling of a command body is abstracted as the command list itself, and
a signature is represented by the data it is computed over (timestamp and
string-to-sign; client id, secret and access token are fixed
configuration). -/

/-- The upstream envelope `{success, result, code, msg}` of the command
endpoints (`result` is a boolean there). -/
structure TuyaResponse where
  success : Bool
  result : Bool
  code : Int
  msg : String
deriving DecidableEq, Repr

/-- §4.1 string-to-sign: `method \n sha256(body) \n \n urlPath`, with the
hashed body represented by its content. -/
structure StringToSign where
  method : String
  body : List CodeValue
  urlPath : String
deriving DecidableEq, Repr

/-- The data an HMAC signature is computed over. -/
structure Signature where
  t : String
  stringToSign : StringToSign
deriving DecidableEq, Repr

/-- One outgoing HTTP request of the dispatcher. -/
structure SentRequest where
  urlPath : String
  commands : List CodeValue
  t : String
  sign : Signature
deriving DecidableEq, Repr

/-- Errors surfaced by the dispatcher. -/
inductive CmdError where
  | transport (msg : String)
  | badRequest (code : Int)
  | apiFailed (msg : String) (code : Int)
deriving DecidableEq, Repr

/-- Environment of a `SendCommand` call. -/
structure SendCommandEnv where
  clock : Nat → String
  now : Int
  primary : Except String TuyaResponse
  retry : Except String TuyaResponse
  store : DStore
  cache : BadgerDB
  saveOk : Bool
  deleteOk : Bool

/-- Outcome of a dispatcher call: request trace, result, updated stores. -/
structure SendCommandResult where
  requests : List SentRequest
  value : Except CmdError Bool
  store : DStore
  cache : BadgerDB

/-- `strings.Replace(s, "_", "", 1)`: drop the first underscore. -/
def removeFirstUnderscore : List Char → List Char
  | [] => []
  | c :: cs => if c = '_' then cs else c :: removeFirstUnderscore cs

/-- The 2008-retry rewrite: a code with prefix `switch_` loses its first
underscore (`switch_1` → `switch1`); other codes are unchanged. -/
def rewriteSwitchCode (code : String) : String :=
  if strHasPrefix "switch_" code then ⟨removeFirstUnderscore code.data⟩
  else code

/-- `SendCommand`: POST to the standard endpoint; on `success=false` return
`badRequest` for 1106, retry once on the legacy endpoint for 2008 when a
`switch_` code is present (reusing the initial timestamp, re-signing over
the new body and path), and otherwise fail with the upstream message/code;
on success, merge-persist the commands and invalidate the detail cache
entry, best-effort. -/
def sendCommand (deviceID : String) (commands : List CodeValue)
    (env : SendCommandEnv) : SendCommandResult :=
  let t := env.clock 0
  let urlPath := "/v1.0/iot-03/devices/" ++ deviceID ++ "/commands"
  let req1 : SentRequest := ⟨urlPath, commands, t, ⟨t, ⟨"POST", commands, urlPath⟩⟩⟩
  match env.primary with
  | .error e => ⟨[req1], .error (.transport e), env.store, env.cache⟩
  | .ok resp =>
    if resp.success then
      let store' := if env.saveOk
        then saveDeviceState env.store deviceID commands env.now else env.store
      let cache' := if env.deleteOk
        then badgerDelete env.cache ("cache:tuya_device:" ++ deviceID)
        else env.cache
      ⟨[req1], .ok resp.result, store', cache'⟩
    else if resp.code = 1106 then
      ⟨[req1], .error (.badRequest resp.code), env.store, env.cache⟩
    else if resp.code = 2008 then
      let retryCommands := commands.map
        (fun c => CodeValue.mk (rewriteSwitchCode c.code) c.value)
      let shouldRetry := commands.any
        (fun c => rewriteSwitchCode c.code != c.code)
      if shouldRetry then
        let retryUrlPath := "/v1.0/devices/" ++ deviceID ++ "/commands"
        let req2 : SentRequest :=
          ⟨retryUrlPath, retryCommands, t,
           ⟨t, ⟨"POST", retryCommands, retryUrlPath⟩⟩⟩
        match env.retry with
        | .ok r2 =>
          if r2.success then ⟨[req1, req2], .ok r2.result, env.store, env.cache⟩
          else ⟨[req1, req2], .error (.apiFailed resp.msg resp.code),
            env.store, env.cache⟩
        | .error _ =>
          ⟨[req1, req2], .error (.apiFailed resp.msg resp.code),
            env.store, env.cache⟩
      else ⟨[req1], .error (.apiFailed resp.msg resp.code), env.store, env.cache⟩
    else ⟨[req1], .error (.apiFailed resp.msg resp.code), env.store, env.cache⟩

theorem removeFirstUnderscore_length (l : List Char) (h : '_' ∈ l) :
    (removeFirstUnderscore l).length + 1 = l.length := by
  induction l with
  | nil => simp at h
  | cons c cs ih =>
    by_cases hc : c = '_'
    · simp [removeFirstUnderscore, hc]
    · have hcs : '_' ∈ cs := by
        rcases List.mem_cons.mp h with h' | h'
        · exact absurd h'.symm hc
        · exact h'
      have := ih hcs
      simp [removeFirstUnderscore, hc]
      omega

theorem rewriteSwitchCode_ne (s : String)
    (h : strHasPrefix "switch_" s = true) : rewriteSwitchCode s ≠ s := by
  intro heq
  have hpre : "switch_".data <+: s.data := by
    have h' := h
    unfold strHasPrefix at h'
    exact List.isPrefixOf_iff_prefix.mp h'
  have hu : '_' ∈ s.data := hpre.subset (by decide)
  have hlen := removeFirstUnderscore_length s.data hu
  rw [rewriteSwitchCode, if_pos h] at heq
  have hd : removeFirstUnderscore s.data = s.data := by
    have : (⟨removeFirstUnderscore s.data⟩ : String).data = s.data := by rw [heq]
    exact this
  rw [hd] at hlen
  omega

theorem shouldRetry_of_switch (commands : List CodeValue)
    (h : ∃ c ∈ commands, strHasPrefix "switch_" c.code = true) :
    (commands.any (fun c => rewriteSwitchCode c.code != c.code)) = true := by
  obtain ⟨c, hc, hpre⟩ := h
  rw [List.any_eq_true]
  exact ⟨c, hc, by simpa using rewriteSwitchCode_ne c.code hpre⟩

/-- Modelled from the claim text of C6, for refutation: its "fresh
signature/timestamp" reading requires the 2008 retry to carry the *next*
clock reading (`clock 1`) in its `t` header, instead of the one drawn for
the first request. -/
def claimC6Stated : Prop :=
  ∀ (deviceID : String) (commands : List CodeValue) (env : SendCommandEnv)
    (resp : TuyaResponse),
    env.primary = .ok resp → resp.success = false → resp.code = 2008 →
    (∃ c ∈ commands, strHasPrefix "switch_" c.code = true) →
    ∃ req2, (sendCommand deviceID commands env).requests
        = [⟨"/v1.0/iot-03/devices/" ++ deviceID ++ "/commands", commands,
            env.clock 0, ⟨env.clock 0, ⟨"POST", commands,
            "/v1.0/iot-03/devices/" ++ deviceID ++ "/commands"⟩⟩⟩, req2]
      ∧ req2.urlPath = "/v1.0/devices/" ++ deviceID ++ "/commands"
      ∧ req2.commands = commands.map
          (fun c => CodeValue.mk (rewriteSwitchCode c.code) c.value)
      ∧ req2.t = env.clock 1

def c6Env : SendCommandEnv :=
  { clock := fun n => toString n, now := 0,
    primary := .ok ⟨false, false, 2008, "m"⟩,
    retry := .ok ⟨true, true, 0, ""⟩,
    store := fun _ => none, cache := fun _ => none,
    saveOk := true, deleteOk := true }

/-- Counterexample for C6 as stated: in a run where the clock readings are
"0", "1", …, the retry request carries `t = "0"` — the timestamp of the
original request — not a fresh `"1"`. -/
theorem sendCommand_2008_retry_counterexample : ¬ claimC6Stated := by
  intro h
  obtain ⟨req2, hreq, hurl, hcmds, ht⟩ :=
    h "d1" [⟨"switch_1", GoValue.vBool true⟩] c6Env ⟨false, false, 2008, "m"⟩
      rfl rfl rfl
      ⟨⟨"switch_1", GoValue.vBool true⟩, by simp, by decide⟩
  have hcomp : (sendCommand "d1" [⟨"switch_1", GoValue.vBool true⟩] c6Env).requests
      = [⟨"/v1.0/iot-03/devices/d1/commands",
          [⟨"switch_1", GoValue.vBool true⟩], "0",
          ⟨"0", ⟨"POST", [⟨"switch_1", GoValue.vBool true⟩],
           "/v1.0/iot-03/devices/d1/commands"⟩⟩⟩,
         ⟨"/v1.0/devices/d1/commands", [⟨"switch1", GoValue.vBool true⟩], "0",
          ⟨"0", ⟨"POST", [⟨"switch1", GoValue.vBool true⟩],
           "/v1.0/devices/d1/commands"⟩⟩⟩] := rfl
  rw [hcomp] at hreq
  injection hreq with h1 h2
  injection h2 with h2 h3
  rw [← h2] at ht
  exact absurd ht (by decide)

/-- C6 (amended): a standard-endpoint response with `success=false`, code
2008 and a `switch_<n>` command code triggers exactly one retry to the
legacy endpoint with every `switch_`-prefixed code rewritten by removing
its first underscore; the retry's signature is freshly computed over the
rewritten body and the legacy path, while the timestamp of the original
request is reused; if the retry succeeds its result is returned, otherwise
the generic upstream-failure error with the original message and code is
returned.  The store and the cache are untouched on this path. -/
theorem sendCommand_2008_retry (deviceID : String) (commands : List CodeValue)
    (env : SendCommandEnv) (resp : TuyaResponse)
    (hp : env.primary = .ok resp) (hs : resp.success = false)
    (hc : resp.code = 2008)
    (hsw : ∃ c ∈ commands, strHasPrefix "switch_" c.code = true) :
    (sendCommand deviceID commands env).requests
      = [⟨"/v1.0/iot-03/devices/" ++ deviceID ++ "/commands", commands,
          env.clock 0, ⟨env.clock 0, ⟨"POST", commands,
          "/v1.0/iot-03/devices/" ++ deviceID ++ "/commands"⟩⟩⟩,
         ⟨"/v1.0/devices/" ++ deviceID ++ "/commands",
          commands.map (fun c => CodeValue.mk (rewriteSwitchCode c.code) c.value),
          env.clock 0,
          ⟨env.clock 0, ⟨"POST",
           commands.map (fun c => CodeValue.mk (rewriteSwitchCode c.code) c.value),
           "/v1.0/devices/" ++ deviceID ++ "/commands"⟩⟩⟩]
    ∧ (sendCommand deviceID commands env).value
        = (match env.retry with
           | .ok r2 => if r2.success then .ok r2.result
                       else .error (.apiFailed resp.msg resp.code)
           | .error _ => .error (.apiFailed resp.msg resp.code))
    ∧ (sendCommand deviceID commands env).store = env.store
    ∧ (sendCommand deviceID commands env).cache = env.cache := by
  have hnot1106 : ¬ (resp.code = 1106) := by rw [hc]; decide
  have hretry := shouldRetry_of_switch commands hsw
  cases hr : env.retry with
  | error e =>
    refine ⟨?_, ?_, ?_, ?_⟩ <;>
      simp [sendCommand, hp, hs, hc, hnot1106, hretry, hr]
  | ok r2 =>
    by_cases hr2 : r2.success <;>
      refine ⟨?_, ?_, ?_, ?_⟩ <;>
        simp [sendCommand, hp, hs, hc, hnot1106, hretry, hr, hr2]

/-- Witness for C6 (amended) at the concrete environment of the
counterexample: one retry with `switch_1` rewritten to `switch1`, result
taken from the successful retry. -/
theorem sendCommand_2008_retry_witness :
    (c6Env.primary = .ok ⟨false, false, 2008, "m"⟩
      ∧ (⟨false, false, 2008, "m"⟩ : TuyaResponse).success = false
      ∧ (⟨false, false, 2008, "m"⟩ : TuyaResponse).code = 2008
      ∧ ∃ c ∈ [(⟨"switch_1", GoValue.vBool true⟩ : CodeValue)],
          strHasPrefix "switch_" c.code = true)
    ∧ (sendCommand "d1" [⟨"switch_1", GoValue.vBool true⟩] c6Env).requests
        = [⟨"/v1.0/iot-03/devices/" ++ "d1" ++ "/commands",
            [⟨"switch_1", GoValue.vBool true⟩],
            c6Env.clock 0, ⟨c6Env.clock 0, ⟨"POST",
            [⟨"switch_1", GoValue.vBool true⟩],
            "/v1.0/iot-03/devices/" ++ "d1" ++ "/commands"⟩⟩⟩,
           ⟨"/v1.0/devices/" ++ "d1" ++ "/commands",
            [(⟨"switch_1", GoValue.vBool true⟩ : CodeValue)].map
              (fun c => CodeValue.mk (rewriteSwitchCode c.code) c.value),
            c6Env.clock 0,
            ⟨c6Env.clock 0, ⟨"POST",
             [(⟨"switch_1", GoValue.vBool true⟩ : CodeValue)].map
               (fun c => CodeValue.mk (rewriteSwitchCode c.code) c.value),
             "/v1.0/devices/" ++ "d1" ++ "/commands"⟩⟩⟩]
    ∧ (sendCommand "d1" [⟨"switch_1", GoValue.vBool true⟩] c6Env).value
        = .ok true := by
  have h := sendCommand_2008_retry "d1" [⟨"switch_1", GoValue.vBool true⟩]
    c6Env ⟨false, false, 2008, "m"⟩ rfl rfl rfl
    ⟨⟨"switch_1", GoValue.vBool true⟩, by simp, by decide⟩
  exact ⟨⟨rfl, rfl, rfl, ⟨⟨"switch_1", GoValue.vBool true⟩, by simp, by decide⟩⟩,
    h.1, by rw [h.2.1]; rfl⟩

/-- Modelled from the claim text of C8, for refutation: *every* successful
`SendCommand` call merge-persists the sent commands under the device id and
deletes the detail cache entry (here with both best-effort operations
succeeding). -/
def claimC8Stated : Prop :=
  ∀ (deviceID : String) (commands : List CodeValue) (env : SendCommandEnv)
    (b : Bool),
    (sendCommand deviceID commands env).value = .ok b →
    env.saveOk = true → env.deleteOk = true →
    (sendCommand deviceID commands env).store deviceID
        = saveDeviceState env.store deviceID commands env.now deviceID
    ∧ (sendCommand deviceID commands env).cache
        ("cache:tuya_device:" ++ deviceID) = none

def c8Env : SendCommandEnv :=
  { clock := fun n => toString n, now := 7,
    primary := .ok ⟨false, false, 2008, "m"⟩,
    retry := .ok ⟨true, true, 0, ""⟩,
    store := fun _ => none,
    cache := fun _ => some ⟨"cached-detail", some 3600⟩,
    saveOk := true, deleteOk := true }

/-- Counterexample for C8 as stated: a call that succeeds through the 2008
legacy retry returns `ok` but persists nothing and leaves the cache entry
in place. -/
theorem sendCommand_success_persists_counterexample : ¬ claimC8Stated := by
  intro h
  obtain ⟨hstore, hcache⟩ :=
    h "d1" [⟨"switch_1", GoValue.vBool true⟩] c8Env true rfl rfl rfl
  exact absurd hcache (by decide)

/-- C8 (amended): when the *primary* standard-endpoint response has
`success = true`, the call returns `ok resp.result` and, best-effort,
merge-persists the sent commands under the device id (the persisted record
maps every code to its most recent value, commands overriding the existing
state) and deletes `cache:tuya_device:<id>`; a failed side effect leaves
its store untouched and never changes the returned result.  A call that
succeeds only through the 2008 legacy retry persists nothing. -/
theorem sendCommand_success_persists (deviceID : String)
    (commands : List CodeValue) (env : SendCommandEnv) (resp : TuyaResponse)
    (hp : env.primary = .ok resp) (hs : resp.success = true) :
    (sendCommand deviceID commands env).value = .ok resp.result
    ∧ (sendCommand deviceID commands env).store
        = (if env.saveOk
           then saveDeviceState env.store deviceID commands env.now
           else env.store)
    ∧ (sendCommand deviceID commands env).cache
        = (if env.deleteOk
           then badgerDelete env.cache ("cache:tuya_device:" ++ deviceID)
           else env.cache)
    ∧ (env.deleteOk = true →
        (sendCommand deviceID commands env).cache
          ("cache:tuya_device:" ++ deviceID) = none)
    ∧ (env.saveOk = true →
        ∃ rec, (sendCommand deviceID commands env).store deviceID = some rec
          ∧ ∀ key, cmdLookup rec.lastCommands key
              = optOr (lastWrite commands key)
                  (match env.store deviceID with
                   | some st => lastWrite st.lastCommands key
                   | none => none)) := by
  refine ⟨by simp [sendCommand, hp, hs], by simp [sendCommand, hp, hs],
    by simp [sendCommand, hp, hs], ?_, ?_⟩
  · intro hdel
    simp [sendCommand, hp, hs, hdel, badgerDelete]
  · intro hsave
    refine ⟨⟨deviceID,
      (goMapEntries [] (buildCommandMap commands
        (match env.store deviceID with
         | some st => buildCommandMap st.lastCommands []
         | none => []))).map (fun p => CodeValue.mk p.1 p.2), env.now⟩,
      by simp [sendCommand, hp, hs, hsave, saveDeviceState, getDeviceState], ?_⟩
    intro key
    rw [cmdLookup_map_pairs, goLookup_goMapEntries _ _ _ (by simp),
      goLookup_buildCommandMap]
    cases hst : env.store deviceID with
    | none => simp [hst, goLookup_nil]
    | some st =>
      rw [goLookup_buildCommandMap]
      cases hw : lastWrite st.lastCommands key <;>
        simp [optOr, goLookup_nil, hw]

def c8EnvOk : SendCommandEnv :=
  { clock := fun n => toString n, now := 9,
    primary := .ok ⟨true, true, 0, ""⟩,
    retry := .error "unused",
    store := fun _ => none,
    cache := fun _ => some ⟨"cached-detail", some 3600⟩,
    saveOk := true, deleteOk := true }

/-- Witness for C8 (amended) at a concrete successful call. -/
theorem sendCommand_success_persists_witness :
    (c8EnvOk.primary = .ok ⟨true, true, 0, ""⟩
      ∧ (⟨true, true, 0, ""⟩ : TuyaResponse).success = true)
    ∧ (sendCommand "d2" [⟨"switch_1", GoValue.vBool true⟩] c8EnvOk).value
        = .ok true
    ∧ (c8EnvOk.deleteOk = true →
        (sendCommand "d2" [⟨"switch_1", GoValue.vBool true⟩] c8EnvOk).cache
          ("cache:tuya_device:" ++ "d2") = none)
    ∧ (c8EnvOk.saveOk = true →
        ∃ rec, (sendCommand "d2" [⟨"switch_1", GoValue.vBool true⟩] c8EnvOk).store
            "d2" = some rec
          ∧ ∀ key, cmdLookup rec.lastCommands key
              = optOr (lastWrite [⟨"switch_1", GoValue.vBool true⟩] key)
                  (match c8EnvOk.store "d2" with
                   | some st => lastWrite st.lastCommands key
                   | none => none)) := by
  have h := sendCommand_success_persists "d2" [⟨"switch_1", GoValue.vBool true⟩]
    c8EnvOk ⟨true, true, 0, ""⟩ rfl rfl
  exact ⟨⟨rfl, rfl⟩, h.1, h.2.2.2.1, h.2.2.2.2⟩

/- ### `SendIRACCommand` (same file) -/

/-- The slice of the device-detail result that `SendIRACCommand` inspects:
the remote's `gatewayID` and its function-catalog codes. -/
structure IRDeviceInfo where
  gatewayID : String
  functions : List String
deriving DecidableEq, Repr

/-- Envelope of the device-detail fetch. -/
structure DeviceFetchResponse where
  success : Bool
  result : IRDeviceInfo
  code : Int
  msg : String
deriving DecidableEq, Repr

/-- Environment of a `SendIRACCommand` call. -/
structure IREnv where
  clock : Nat → String
  now : Int
  deviceFetch : Except String DeviceFetchResponse
  irPrimary : Except String TuyaResponse
  legacy : Except String TuyaResponse
  store : DStore
  cache : BadgerDB
  saveOk : Bool
  deleteOk : Bool

/-- Whether the fetched function catalog contains `PowerOn` or `PowerOff`,
forcing the legacy standard-control path (fetch failures leave it off). -/
def irForceLegacy (env : IREnv) : Bool :=
  match env.deviceFetch with
  | .error _ => false
  | .ok resp =>
    if resp.success then
      resp.result.functions.any (fun f => f == "PowerOn" || f == "PowerOff")
    else false

/-- The blaster id actually addressed: the fetched non-empty `gatewayID`
when available, else the caller-supplied `infraredID`. -/
def irResolveInfraredID (infraredID : String) (env : IREnv) : String :=
  match env.deviceFetch with
  | .error _ => infraredID
  | .ok resp =>
    if resp.success then
      (if resp.result.gatewayID ≠ "" then resp.result.gatewayID else infraredID)
    else infraredID

/-- The `sendLegacy` mapping (Go `switch code`): generic IR code →
device-specific DP code; `power`'s value becomes the string literal of the
target code, every other value passes through. -/
def mapIRToLegacy (code : String) (value : Int) : CodeValue :=
  if code = "temp" then ⟨"T", .vInt value⟩
  else if code = "power" then
    (if value = 1 then ⟨"PowerOn", .vStr "PowerOn"⟩
     else ⟨"PowerOff", .vStr "PowerOff"⟩)
  else if code = "mode" then ⟨"M", .vInt value⟩
  else if code = "wind" then ⟨"F", .vInt value⟩
  else ⟨code, .vInt value⟩

/-- The `sendLegacy` closure: one mapped command POSTed to the legacy
endpoint of `remoteID`, with a freshly drawn timestamp (index `i`); 1106
maps to `badRequest`, other failures to the generic upstream error. -/
def sendLegacy (remoteID code : String) (value : Int) (env : IREnv)
    (i : Nat) (prefixReqs : List SentRequest) : SendCommandResult :=
  let t := env.clock i
  let urlPath := "/v1.0/devices/" ++ remoteID ++ "/commands"
  let cmds := [mapIRToLegacy code value]
  let req : SentRequest := ⟨urlPath, cmds, t, ⟨t, ⟨"POST", cmds, urlPath⟩⟩⟩
  match env.legacy with
  | .error e => ⟨prefixReqs ++ [req], .error (.transport e), env.store, env.cache⟩
  | .ok resp =>
    if resp.success then
      ⟨prefixReqs ++ [req], .ok resp.result, env.store, env.cache⟩
    else if resp.code = 1106 then
      ⟨prefixReqs ++ [req], .error (.badRequest resp.code), env.store, env.cache⟩
    else
      ⟨prefixReqs ++ [req], .error (.apiFailed resp.msg resp.code),
        env.store, env.cache⟩

/-- `SendIRACCommand`: fetch the remote's detail record (hub resolution and
custom-instruction detection), then either go straight to the legacy path
(`forceLegacy`), or POST the single `{code, value}` body to the IR-AC
endpoint addressed by `(infraredID', remoteID)`; fall back to the legacy
path on upstream code 30100 or 1106; on primary success, merge-persist
`{code: value}` under `remoteID` and invalidate its detail cache entry,
best-effort. -/
def sendIRACCommand (infraredID remoteID code : String) (value : Int)
    (env : IREnv) : SendCommandResult :=
  let fetchReq : SentRequest :=
    ⟨"/v1.0/iot-03/devices/" ++ remoteID, [], env.clock 0,
     ⟨env.clock 0, ⟨"GET", [], "/v1.0/iot-03/devices/" ++ remoteID⟩⟩⟩
  let infraredID' := irResolveInfraredID infraredID env
  if irForceLegacy env then sendLegacy remoteID code value env 1 [fetchReq]
  else
    let t := env.clock 1
    let urlPath := "/v2.0/infrareds/" ++ infraredID' ++ "/air-conditioners/"
      ++ remoteID ++ "/command"
    let body := [CodeValue.mk code (.vInt value)]
    let req : SentRequest := ⟨urlPath, body, t, ⟨t, ⟨"POST", body, urlPath⟩⟩⟩
    match env.irPrimary with
    | .error e => ⟨[fetchReq, req], .error (.transport e), env.store, env.cache⟩
    | .ok resp =>
      if resp.success then
        let store' := if env.saveOk
          then saveDeviceState env.store remoteID [⟨code, .vInt value⟩] env.now
          else env.store
        let cache' := if env.deleteOk
          then badgerDelete env.cache ("cache:tuya_device:" ++ remoteID)
          else env.cache
        ⟨[fetchReq, req], .ok resp.result, store', cache'⟩
      else if resp.code = 30100 ∨ resp.code = 1106 then
        sendLegacy remoteID code value env 2 [fetchReq, req]
      else
        ⟨[fetchReq, req], .error (.apiFailed resp.msg resp.code),
          env.store, env.cache⟩

/-- C7: when the primary IR-AC call fails with upstream code 30100 or 1106
(and the function catalog did not already force the legacy path), exactly
one legacy fallback call is dispatched, addressed to `remoteID` — not the
resolved `infraredID` — whose single command maps `temp→T` (value passed
through), `power→PowerOn/PowerOff` (value replaced by the string literal
matching the target code), `mode→M` and `wind→F` (values passed through),
and passes any other code through unchanged; the call returns the
fallback's outcome. -/
theorem sendIRACCommand_fallback (infraredID remoteID code : String)
    (value : Int) (env : IREnv) (resp : TuyaResponse)
    (hforce : irForceLegacy env = false)
    (hp : env.irPrimary = .ok resp) (hs : resp.success = false)
    (hcode : resp.code = 30100 ∨ resp.code = 1106) :
    (sendIRACCommand infraredID remoteID code value env).requests
      = [⟨"/v1.0/iot-03/devices/" ++ remoteID, [], env.clock 0,
          ⟨env.clock 0, ⟨"GET", [], "/v1.0/iot-03/devices/" ++ remoteID⟩⟩⟩,
         ⟨"/v2.0/infrareds/" ++ irResolveInfraredID infraredID env
            ++ "/air-conditioners/" ++ remoteID ++ "/command",
          [CodeValue.mk code (GoValue.vInt value)], env.clock 1,
          ⟨env.clock 1, ⟨"POST", [CodeValue.mk code (GoValue.vInt value)],
           "/v2.0/infrareds/" ++ irResolveInfraredID infraredID env
             ++ "/air-conditioners/" ++ remoteID ++ "/command"⟩⟩⟩,
         ⟨"/v1.0/devices/" ++ remoteID ++ "/commands",
          [mapIRToLegacy code value], env.clock 2,
          ⟨env.clock 2, ⟨"POST", [mapIRToLegacy code value],
           "/v1.0/devices/" ++ remoteID ++ "/commands"⟩⟩⟩]
    ∧ (sendIRACCommand infraredID remoteID code value env).value
        = (match env.legacy with
           | .error e => .error (.transport e)
           | .ok r =>
             if r.success then .ok r.result
             else if r.code = 1106 then .error (.badRequest r.code)
             else .error (.apiFailed r.msg r.code))
    ∧ (∀ v, mapIRToLegacy "temp" v = ⟨"T", GoValue.vInt v⟩)
    ∧ mapIRToLegacy "power" 1 = ⟨"PowerOn", GoValue.vStr "PowerOn"⟩
    ∧ (∀ v, v ≠ 1 → mapIRToLegacy "power" v = ⟨"PowerOff", GoValue.vStr "PowerOff"⟩)
    ∧ (∀ v, mapIRToLegacy "mode" v = ⟨"M", GoValue.vInt v⟩)
    ∧ (∀ v, mapIRToLegacy "wind" v = ⟨"F", GoValue.vInt v⟩)
    ∧ (∀ c v, c ≠ "temp" → c ≠ "power" → c ≠ "mode" → c ≠ "wind" →
        mapIRToLegacy c v = ⟨c, GoValue.vInt v⟩) := by
  refine ⟨?_, ?_, fun v => rfl, rfl, ?_, fun v => rfl, fun v => rfl, ?_⟩
  · rcases hcode with hc | hc
    all_goals
      cases hl : env.legacy with
      | error e => simp [sendIRACCommand, sendLegacy, hforce, hp, hs, hc, hl]
      | ok r =>
        by_cases hr : r.success
        · simp [sendIRACCommand, sendLegacy, hforce, hp, hs, hc, hl, hr]
        · by_cases h1106 : r.code = 1106 <;>
            simp [sendIRACCommand, sendLegacy, hforce, hp, hs, hc, hl, hr, h1106]
  · rcases hcode with hc | hc
    all_goals
      cases hl : env.legacy with
      | error e => simp [sendIRACCommand, sendLegacy, hforce, hp, hs, hc, hl]
      | ok r =>
        by_cases hr : r.success
        · simp [sendIRACCommand, sendLegacy, hforce, hp, hs, hc, hl, hr]
        · by_cases h1106 : r.code = 1106 <;>
            simp [sendIRACCommand, sendLegacy, hforce, hp, hs, hc, hl, hr, h1106]
  · intro v hv
    simp [mapIRToLegacy, hv]
  · intro c v h1 h2 h3 h4
    simp [mapIRToLegacy, h1, h2, h3, h4]

def c7Env : IREnv :=
  { clock := fun n => toString n, now := 11,
    deviceFetch := .ok ⟨true, ⟨"GW7", ["T", "M"]⟩, 0, ""⟩,
    irPrimary := .ok ⟨false, false, 30100, "e"⟩,
    legacy := .ok ⟨true, true, 0, ""⟩,
    store := fun _ => none, cache := fun _ => none,
    saveOk := true, deleteOk := true }

/-- Witness for C7: a `power=1` command whose IR call fails with 30100 is
re-sent as `{PowerOn, "PowerOn"}` to `remoteID`'s legacy endpoint. -/
theorem sendIRACCommand_fallback_witness :
    (irForceLegacy c7Env = false
      ∧ c7Env.irPrimary = .ok ⟨false, false, 30100, "e"⟩
      ∧ (⟨false, false, 30100, "e"⟩ : TuyaResponse).success = false
      ∧ (⟨false, false, 30100, "e"⟩ : TuyaResponse).code = 30100)
    ∧ (sendIRACCommand "IR7" "R7" "power" 1 c7Env).requests
      = [⟨"/v1.0/iot-03/devices/" ++ "R7", [], c7Env.clock 0,
          ⟨c7Env.clock 0, ⟨"GET", [], "/v1.0/iot-03/devices/" ++ "R7"⟩⟩⟩,
         ⟨"/v2.0/infrareds/" ++ irResolveInfraredID "IR7" c7Env
            ++ "/air-conditioners/" ++ "R7" ++ "/command",
          [CodeValue.mk "power" (GoValue.vInt 1)], c7Env.clock 1,
          ⟨c7Env.clock 1, ⟨"POST", [CodeValue.mk "power" (GoValue.vInt 1)],
           "/v2.0/infrareds/" ++ irResolveInfraredID "IR7" c7Env
             ++ "/air-conditioners/" ++ "R7" ++ "/command"⟩⟩⟩,
         ⟨"/v1.0/devices/" ++ "R7" ++ "/commands",
          [mapIRToLegacy "power" 1], c7Env.clock 2,
          ⟨c7Env.clock 2, ⟨"POST", [mapIRToLegacy "power" 1],
           "/v1.0/devices/" ++ "R7" ++ "/commands"⟩⟩⟩]
    ∧ mapIRToLegacy "power" 1 = ⟨"PowerOn", GoValue.vStr "PowerOn"⟩
    ∧ (sendIRACCommand "IR7" "R7" "power" 1 c7Env).value = .ok true := by
  have h := sendIRACCommand_fallback "IR7" "R7" "power" 1 c7Env
    ⟨false, false, 30100, "e"⟩ (by decide) rfl rfl (Or.inl rfl)
  exact ⟨⟨by decide, rfl, rfl, rfl⟩, h.1, h.2.2.2.1, by rw [h.2.1]; rfl⟩
